import Mathlib

/-!
Shallow embedding of the Embed tool (src/index.js): service registry
resolution (`Embed.prepare`, `checkServiceConfig`), the URL matcher
(`matchService`, `performServices`), the embed data model (`set data`,
constructor, `save`), and the quiescence detector (`embedIsReady`).

JavaScript values appearing as fields of duck-typed configuration objects
are modelled by `FieldVal`; own-property presence (needed for the
`Object.assign` semantics in `prepare`) is modelled by `Option FieldVal`
on each known field of `JsObj`.  The builtin catalog `./services` is not
part of the repository sources, so registries are parameterised by an
arbitrary list of builtin entries; `CSS.supports` is a browser API and is
passed in as an abstract predicate.
-/

/-- A JavaScript RegExp, modelled extensionally by its `exec` behaviour on a
string: `none` is a failed match (`null`), `some arr` is the match array
(index 0 the full match, then the capture groups, a group being `none` when
it did not participate).  `test` is `isSome` of `exec`; the model is pure
(non-global regexes). -/
def JSRegex : Type := String → Option (List (Option String))

/-- The result of calling a user-supplied `id` function: `none` models the
JS value `undefined`, `some s` a string result. -/
def IdFun : Type := List (Option String) → Option String

/-- A JavaScript value as it can appear in a field position of the
configuration / data objects handled by the tool. -/
inductive FieldVal where
  | undefv : FieldVal
  | nullv : FieldVal
  | str : String → FieldVal
  | num : Int → FieldVal
  | boolv : Bool → FieldVal
  | re : JSRegex → FieldVal
  | fn : IdFun → FieldVal

/-- JS truthiness of a `FieldVal` (`undefined`, `null`, `false`, `0` and the
empty string are falsy; RegExp and Function objects are truthy). -/
def truthy : FieldVal → Bool
  | .undefv => false
  | .nullv => false
  | .str s => !(s = "")
  | .num n => !(n = 0)
  | .boolv b => b
  | .re _ => true
  | .fn _ => true

/-- `typeof v === 'string'`. -/
def isStrV : FieldVal → Bool
  | .str _ => true
  | _ => false

/-- `v instanceof RegExp`. -/
def isReV : FieldVal → Bool
  | .re _ => true
  | _ => false

/-- `v instanceof Function`. -/
def isFnV : FieldVal → Bool
  | .fn _ => true
  | _ => false

/-- A service-like JS object restricted to the six properties the code ever
reads.  `none` models an absent own property, `some v` a present own
property with value `v` (possibly `undefined`): the distinction matters for
`Object.assign` in `Embed.prepare`. -/
structure JsObj where
  regex : Option FieldVal
  embedUrl : Option FieldVal
  html : Option FieldVal
  height : Option FieldVal
  width : Option FieldVal
  id : Option FieldVal

/-- Property read as done by destructuring: an absent property reads as
`undefined`. -/
def fieldOf (o : Option FieldVal) : FieldVal := o.getD .undefv

/-- A value of the user configuration's `services` mapping: a boolean flag,
`null` (which has `typeof === 'object'`!), an object, or any other value
(string, number, undefined, function, ... — ignored by both filters in
`prepare`). -/
inductive ConfigVal where
  | vbool : Bool → ConfigVal
  | vnull : ConfigVal
  | vobj : JsObj → ConfigVal
  | vother : ConfigVal

/-- `typeof value === 'boolean' && value === true` (the enable-flag filter in
`Embed.prepare`). -/
def boolTrue : ConfigVal → Bool
  | .vbool true => true
  | _ => false

/-- `typeof value === 'object'` — true for objects and for `null`. -/
def isObjType : ConfigVal → Bool
  | .vnull => true
  | .vobj _ => true
  | _ => false

def heightProp : String := "height"

def widthProp : String := "width"

/-- The body of `Embed.checkServiceConfig` on an actual (non-null) object,
after destructuring.  `cssOK p v` models the browser call
`CSS.supports(p, v)`. -/
def checkObj (cssOK : String → FieldVal → Bool) (o : JsObj) : Bool :=
  let regex := fieldOf o.regex
  let embedUrl := fieldOf o.embedUrl
  let html := fieldOf o.html
  let height := fieldOf o.height
  let width := fieldOf o.width
  let id := fieldOf o.id
  truthy regex && isReV regex
    && truthy embedUrl && isStrV embedUrl
    && truthy html && isStrV html
    && (match id with | .undefv => true | v => isFnV v)
    && (match height with | .undefv => true | v => cssOK heightProp v)
    && (match width with | .undefv => true | v => cssOK widthProp v)

def errDestructureNull : String := "TypeError: cannot destructure property of null"

/-- `Embed.checkServiceConfig` (src/index.js:322-335).  Destructuring `null`
throws a `TypeError`; destructuring any other primitive yields `undefined`
fields and hence a falsy `isValid`. -/
def checkServiceConfig (cssOK : String → FieldVal → Bool) :
    ConfigVal → Except String Bool
  | .vnull => .error errDestructureNull
  | .vobj o => .ok (checkObj cssOK o)
  | _ => .ok false

/-- The `.map` step of `Embed.prepare`: rebuild a validated custom service
from its destructured fields.  Every one of the six properties becomes a
present own property — with value `undefined` when the custom definition
did not supply it.  This is what later makes `Object.assign` overwrite
builtin fields with `undefined`. -/
def pickService (o : JsObj) : JsObj where
  regex := some (fieldOf o.regex)
  embedUrl := some (fieldOf o.embedUrl)
  html := some (fieldOf o.html)
  height := some (fieldOf o.height)
  width := some (fieldOf o.width)
  id := some (fieldOf o.id)

/-- Property-wise override: a present own property of `b` wins. -/
def ovr (a b : Option FieldVal) : Option FieldVal :=
  match b with
  | some v => some v
  | none => a

/-- `Object.assign({}, a, b)` restricted to the six known fields: a present
own property of `b` (even one holding `undefined`) overwrites, an absent
one does not. -/
def objAssign (a b : JsObj) : JsObj where
  regex := ovr a.regex b.regex
  embedUrl := ovr a.embedUrl b.embedUrl
  html := ovr a.html b.html
  height := ovr a.height b.height
  width := ovr a.width b.width
  id := ovr a.id b.id

/-- The userServices pass of `Embed.prepare`: keep object-typed entries that
pass `checkServiceConfig` (which throws on `null`), rebuilt by
`pickService`. -/
def validCustoms (cssOK : String → FieldVal → Bool) :
    List (String × ConfigVal) → Except String (List (String × JsObj))
  | [] => .ok []
  | (k, v) :: rest =>
    if isObjType v then
      match checkServiceConfig cssOK v with
      | .error e => .error e
      | .ok b =>
        match validCustoms cssOK rest with
        | .error e => .error e
        | .ok tail =>
          if b then
            match v with
            | .vobj o => .ok ((k, pickService o) :: tail)
            | _ => .ok tail
          else .ok tail
    else validCustoms cssOK rest

/-- `result[key] = ...` inside the reduce of `Embed.prepare`: assigning to an
existing key updates it in place (via `Object.assign` over the old value),
a new key is appended. -/
def insertMerge : List (String × JsObj) → String → JsObj → List (String × JsObj)
  | [], k, v => [(k, v)]
  | (k1, v1) :: rest, k, v =>
    if k1 = k then (k1, objAssign v1 v) :: rest
    else (k1, v1) :: insertMerge rest k v

/-- `Embed.prepare` (src/index.js:261-314), parameterised by the builtin
catalog entries (the `./services` module is not in the repository sources)
and by the abstract `CSS.supports` predicate.  The input `cfg` is
`Object.entries(config.services)` in own-property order.  Returns the
resolved `Embed.services` registry in property-creation order, or the
exception the resolution throws. -/
def prepare (builtins : List (String × JsObj)) (cfg : List (String × ConfigVal))
    (cssOK : String → FieldVal → Bool) : Except String (List (String × JsObj)) :=
  let enabled := (cfg.filter (fun kv => boolTrue kv.2)).map Prod.fst
  match validCustoms cssOK cfg with
  | .error e => .error e
  | .ok user =>
    let base := if enabled.isEmpty then builtins
      else builtins.filter (fun kv => enabled.contains kv.1)
    let entries := base ++ user
    .ok (entries.foldl (fun acc kv => insertMerge acc kv.1 kv.2) [])

/-- The private `this._data` record of an `Embed` instance, restricted to the
fields the `data` setter actually writes (the `caption` assignment at
src/index.js:109 is commented out; the setter destructures but discards the
incoming caption). -/
structure EmbedData where
  service : FieldVal
  source : FieldVal
  embed : FieldVal
  width : FieldVal
  height : FieldVal

/-- `this._data = {}` in the constructor: reading any field of the fresh
record yields `undefined`. -/
def emptyRecord : EmbedData where
  service := .undefv
  source := .undefv
  embed := .undefv
  width := .undefv
  height := .undefv

/-- The argument passed to the `data` setter.  `vobj d` stands for any value
with `v instanceof Object` true (plain objects, and also arrays or
functions, whose destructured named fields then read as `undefined`);
the remaining constructors are the primitive values for which
`instanceof Object` is false and the setter throws. -/
inductive DataArg where
  | vundefv : DataArg
  | vnull : DataArg
  | vnum : Int → DataArg
  | vstr : String → DataArg
  | vbool : Bool → DataArg
  | vobj : EmbedData → DataArg

/-- `data instanceof Object`. -/
def isObjArg : DataArg → Bool
  | .vobj _ => true
  | _ => false

/-- `x || y`: JS logical-or used by the merge in the `data` setter. -/
def jsOr (x y : FieldVal) : FieldVal :=
  if truthy x then x else y

def errDataNotObject : String := "Embed Tool data should be object"

/-- The `data` setter (src/index.js:96-117): throw on a non-object argument,
otherwise merge the destructured fields over the current record with
`new || old` per field.  The re-render trigger on an existing view is an
external DOM effect and is outside the record model. -/
def setData (arg : DataArg) (cur : EmbedData) : Except String EmbedData :=
  match arg with
  | .vobj d =>
    .ok { service := jsOr d.service cur.service
          source := jsOr d.source cur.source
          embed := jsOr d.embed cur.embed
          width := jsOr d.width cur.width
          height := jsOr d.height cur.height }
  | _ => .error errDataNotObject

/-- `this.data = ...` as a statement: on a throw the stored record is left
untouched (the exception happens before any assignment to `this._data`). -/
def runSet (arg : DataArg) (cur : EmbedData) : EmbedData × Option String :=
  match setData arg cur with
  | .ok r => (r, none)
  | .error e => (cur, some e)

/-- The constructor (src/index.js:71-85): `this._data = {}` followed by
`this.data = data` through the setter, with no view rendered yet. -/
def constructEmbed (arg : DataArg) : Except String EmbedData :=
  setData arg emptyRecord

/-- `save()` = the `data` getter with `this.element === null` (no render has
happened): it returns `this._data` unchanged — the caption read-back
branch requires a live view. -/
def saveData (d : EmbedData) : EmbedData := d

/- ### The iframe-unwrapping regex of `matchService`

`str.match(/<iframe.*?\ssrc=(['|"])(.+?)\1.+iframe>/)` modelled directly:
leftmost match, lazy `.*?` and `(.+?)`, character class `['|"]`,
backreference `\1`, with `.` excluding the JS LineTerminator set.  Only
the second capture group is consumed by the caller. -/

def dqChar : Char := Char.ofNat 34

def sqChar : Char := Char.ofNat 39

def nlChar : Char := Char.ofNat 10

def crChar : Char := Char.ofNat 13

def lsChar : Char := Char.ofNat 8232

def psChar : Char := Char.ofNat 8233

/-- JS `.` (no dotAll flag): any character except a LineTerminator. -/
def isDotC (c : Char) : Bool :=
  !(c = nlChar) && !(c = crChar) && !(c = lsChar) && !(c = psChar)

/-- JS `\s`: WhiteSpace and LineTerminator characters. -/
def isWsC (c : Char) : Bool :=
  c = ' ' || c = Char.ofNat 9 || c = nlChar || c = Char.ofNat 11
    || c = Char.ofNat 12 || c = crChar || c = Char.ofNat 160
    || c = Char.ofNat 65279 || c = lsChar || c = psChar
    || c = Char.ofNat 5760 || (8192 ≤ c.toNat && c.toNat ≤ 8202)
    || c = Char.ofNat 8239 || c = Char.ofNat 8287 || c = Char.ofNat 12288

/-- The character class `['|"]`. -/
def isQuoteC (c : Char) : Bool :=
  c = sqChar || c = '|' || c = dqChar

/-- Strip a literal from the front of the input. -/
def stripPre : List Char → List Char → Option (List Char)
  | [], l => some l
  | _ :: _, [] => none
  | p :: ps, c :: cs => if p = c then stripPre ps cs else none

/-- The literal `iframe>` ending the wrapping pattern. -/
def closeLit : List Char := ['i', 'f', 'r', 'a', 'm', 'e', '>']

/-- The literal `src=`. -/
def srcLit : List Char := ['s', 'r', 'c', '=']

/-- The literal `<iframe` opening the wrapping pattern. -/
def openLit : List Char := ['<', 'i', 'f', 'r', 'a', 'm', 'e']

/-- `(dot)* iframe>`: the tail of `.+iframe>` after its first character. -/
def dotStarIframe : List Char → Bool
  | [] => false
  | c :: rest => (stripPre closeLit (c :: rest)).isSome || (isDotC c && dotStarIframe rest)

/-- `.+iframe>`: at least one non-LineTerminator character, then the literal
`iframe>`. -/
def dotPlusIframe : List Char → Bool
  | [] => false
  | c :: rest => isDotC c && dotStarIframe rest

/-- The lazy `(.+?)\1.+iframe>` step: consume one non-LineTerminator
character into group 2, then first try the backreference (the next
character must equal the opening quote) followed by the rest of the
pattern; on failure grow the group by one more character.  A final
character with nothing after it cannot be followed by the backreference,
so it fails. -/
def matchG2 (q : Char) (acc : List Char) : List Char → Option (List Char)
  | [] => none
  | [_] => none
  | c :: q2 :: rest2 =>
    if isDotC c then
      if q2 = q && dotPlusIframe rest2 then some (acc ++ [c])
      else matchG2 q (acc ++ [c]) (q2 :: rest2)
    else none

/-- The lazy `.*?\ssrc=(['|"])` step: at each offset first try
`\s src= quote`, then let `.*?` consume one more non-LineTerminator
character. -/
def matchStar : List Char → Option (List Char)
  | [] => none
  | c :: rest =>
    (if isWsC c then
      match stripPre srcLit rest with
      | some (q :: r3) => if isQuoteC q then matchG2 q [] r3 else none
      | _ => none
     else none).orElse
      (fun _ => if isDotC c then matchStar rest else none)

/-- Leftmost application of the whole pattern: try every start position in
order; at a start position the literal `<iframe` must match first.
Returns capture group 2 of the first match. -/
def iframeMatch : List Char → Option (List Char)
  | [] => none
  | c :: rest =>
    (match stripPre openLit (c :: rest) with
     | some r => matchStar r
     | none => none).orElse
      (fun _ => iframeMatch rest)

/-- `const url = (ary && ary[2]) || str` (src/index.js:435-436). -/
def candidateOf (str : String) : String :=
  match iframeMatch str.toList with
  | some g2 => let m := String.mk g2; if m = "" then str else m
  | none => str

/- ### Registry enumeration and the matcher loop -/

/-- Numeric value of a digit string. -/
def natOf (s : String) : Nat :=
  s.toList.foldl (fun a c => a * 10 + (c.toNat - 48)) 0

/-- Whether a property key is an array index in the ECMAScript sense: the
canonical decimal string of an integer `n` with `0 ≤ n < 2^32 - 1`.  Such
keys are enumerated first (in ascending numeric order) by `for..in` over a
plain object, before the remaining string keys in creation order. -/
def isIndexKey (s : String) : Bool :=
  !(s = "") && s.toList.all Char.isDigit
    && (s = "0" || !(s.toList.headD '0' = '0'))
    && natOf s < 4294967295

/-- Insert into a list sorted by ascending numeric key value. -/
def insertByNat (kv : String × JsObj) : List (String × JsObj) → List (String × JsObj)
  | [] => [kv]
  | x :: rest =>
    if natOf kv.1 ≤ natOf x.1 then kv :: x :: rest
    else x :: insertByNat kv rest

def sortByNat : List (String × JsObj) → List (String × JsObj)
  | [] => []
  | x :: rest => insertByNat x (sortByNat rest)

/-- `for (var key in services)` enumeration order over the registry object:
array-index keys first in ascending numeric order, then the other keys in
property-creation order. -/
def forInOrder (l : List (String × JsObj)) : List (String × JsObj) :=
  sortByNat (l.filter (fun kv => isIndexKey kv.1))
    ++ l.filter (fun kv => !(isIndexKey kv.1))

def errTestNotFn : String := "TypeError: regex.test is not a function"

/-- `regex.test(url)` after destructuring `{regex}` from a registry entry: a
non-RegExp value throws. -/
def testField (v : FieldVal) (url : String) : Except String Bool :=
  match v with
  | .re r => .ok (r url).isSome
  | _ => .error errTestNotFn

/-- The `for..in` loop body of `matchService` (src/index.js:443-451): first
key whose pattern tests positive wins; `composePasteEventMock` packages it
as the `(key, url)` pair carried by the mock paste event. -/
def matchLoop (url : String) : List (String × JsObj) → Except String (Option (String × String))
  | [] => .ok none
  | (k, svc) :: rest =>
    match testField (fieldOf svc.regex) url with
    | .error e => .error e
    | .ok b => if b then .ok (some (k, url)) else matchLoop url rest

/-- `matchService` (src/index.js:433-454): unwrap iframe markup to its `src`
value if the wrapping regex matches, bail out on an empty candidate URL,
then scan the registry in `for..in` order. -/
def matchService (services : List (String × JsObj)) (str : String) :
    Except String (Option (String × String)) :=
  let url := candidateOf str
  if url = "" then .ok none
  else matchLoop url (forInOrder services)

/- ### performServices -/

/-- `String(v)` as applied by `String.prototype.replace` to a non-callable
replacement value: `undefined` stringifies to `"undefined"`. -/
def jsStr : Option String → String
  | none => "undefined"
  | some s => s

/-- The embed-URL placeholder matched globally by
`/<\%\= remote\_id \%\>/g` (all escapes are identity escapes). -/
def placeholder : String := "<%= remote_id %>"

/-- Replace every (non-overlapping, left-to-right) occurrence of `pat` in the
input, fuel-bounded by the input length. -/
def replaceL (pat rep : List Char) : Nat → List Char → List Char
  | 0, l => l
  | _ + 1, [] => []
  | fuel + 1, c :: rest =>
    match stripPre pat (c :: rest) with
    | some r => rep ++ replaceL pat rep fuel r
    | none => c :: replaceL pat rep fuel rest

/-- `s.replace(/pat/g, rep)` for a literal pattern and a plain replacement
string (no `$`-substitution patterns occur in this code path). -/
def replaceAllS (s pat rep : String) : String :=
  String.mk (replaceL pat.toList rep.toList (s.toList.length + 1) s.toList)

/-- The default id extractor `(ids) => ids.shift()`: the first capture group
(itself possibly undefined), or `undefined` on an empty array. -/
def defaultId : List (Option String) → Option String
  | [] => none
  | g :: _ => g

def errNoService : String := "TypeError: cannot destructure undefined service"

def errExecNull : String := "TypeError: cannot read slice of null"

def errExecNotFn : String := "TypeError: regex.exec is not a function"

def errReplaceNotFn : String := "TypeError: embedUrl.replace is not a function"

def errIdNotFn : String := "TypeError: id is not a function"

/-- `performServices` (src/index.js:240-254): destructure the service from
the registry, run `regex.exec(url).slice(1)`, substitute the extracted id
into the embed-URL template (a JS `replace` first resolves the `replace`
method on `embedUrl`, then evaluates `id(result)`), and assign the result
through the `data` setter. -/
def performServices (services : List (String × JsObj)) (key url : String)
    (cur : EmbedData) : Except String EmbedData :=
  match services.lookup key with
  | none => .error errNoService
  | some svc =>
    match fieldOf svc.regex with
    | .re r =>
      match r url with
      | none => .error errExecNull
      | some arr =>
        let result := arr.drop 1
        match fieldOf svc.embedUrl with
        | .str tmpl =>
          match fieldOf svc.id with
          | .undefv =>
            let embed := replaceAllS tmpl placeholder (jsStr (defaultId result))
            setData (.vobj { service := .str key, source := .str url,
                             embed := .str embed,
                             width := fieldOf svc.width,
                             height := fieldOf svc.height }) cur
          | .fn f =>
            let embed := replaceAllS tmpl placeholder (jsStr (f result))
            setData (.vobj { service := .str key, source := .str url,
                             embed := .str embed,
                             width := fieldOf svc.width,
                             height := fieldOf svc.height }) cur
          | _ => .error errIdNotFn
        | _ => .error errReplaceNotFn
    | _ => .error errExecNotFn

/-- `startChecking` (src/index.js:408-416): run the matcher; on a match,
funnel the mock event into `performServices`; otherwise `checkFailed`
(an external notification plus input error styling) — the record is left
unchanged and modelled as `none`. -/
def startChecking (services : List (String × JsObj)) (cur : EmbedData)
    (str : String) : Except String (Option EmbedData) :=
  match matchService services str with
  | .error e => .error e
  | .ok none => .ok none
  | .ok (some (k, u)) =>
    match performServices services k u cur with
    | .error e => .error e
    | .ok r => .ok (some r)

/- ### The quiescence detector -/

/-- `PRELOADER_DELAY` (src/index.js:352). -/
def PRELOADER_DELAY : Nat := 450

/-- Modelled from the spec: the `debounce` package used by `embedIsReady`
(src/index.js:351-362) is an external dependency; per §4.5 each observed
mutation batch resets a quiet-period timer of `delay` time units and the
promise resolves once, when a batch is followed by no further batch for a
full quiet period.  Input: the (time-ordered) instants of the observed
mutation batches; output: the resolution instant, or `none` when the
promise never resolves. -/
def debounceResolve (delay : Nat) : List Nat → Option Nat
  | [] => none
  | [t] => some (t + delay)
  | t1 :: t2 :: rest =>
    if t2 < t1 + delay then debounceResolve delay (t2 :: rest)
    else some (t1 + delay)

/-- `embedIsReady` at the level of observed mutation-batch instants. -/
def embedIsReadyAt (batches : List Nat) : Option Nat :=
  debounceResolve PRELOADER_DELAY batches

/- ### Data-model theorems -/

/-- Field-by-field merge behaviour of the `data` setter: a truthy incoming
field wins, a falsy incoming field (including omitted = `undefined` and the
empty string) keeps the previous value. -/
def mergeSpec (cur d r : EmbedData) : Prop :=
  (truthy d.service = true → r.service = d.service)
    ∧ (truthy d.service = false → r.service = cur.service)
    ∧ (truthy d.source = true → r.source = d.source)
    ∧ (truthy d.source = false → r.source = cur.source)
    ∧ (truthy d.embed = true → r.embed = d.embed)
    ∧ (truthy d.embed = false → r.embed = cur.embed)
    ∧ (truthy d.width = true → r.width = d.width)
    ∧ (truthy d.width = false → r.width = cur.width)
    ∧ (truthy d.height = true → r.height = d.height)
    ∧ (truthy d.height = false → r.height = cur.height)

theorem setData_ok_iff (cur d r : EmbedData) :
    setData (DataArg.vobj d) cur = .ok r ↔
      r = { service := jsOr d.service cur.service
            source := jsOr d.source cur.source
            embed := jsOr d.embed cur.embed
            width := jsOr d.width cur.width
            height := jsOr d.height cur.height } := by
  simp [setData, eq_comm]

theorem jsOr_of_truthy (x y : FieldVal) (h : truthy x = true) : jsOr x y = x := by
  simp [jsOr, h]

theorem jsOr_of_falsy (x y : FieldVal) (h : truthy x = false) : jsOr x y = y := by
  simp [jsOr, h]

theorem setData_mergeSpec (cur d r : EmbedData)
    (h : setData (DataArg.vobj d) cur = .ok r) : mergeSpec cur d r := by
  rw [setData_ok_iff] at h
  subst h
  refine ⟨?_, ?_, ?_, ?_, ?_, ?_, ?_, ?_, ?_, ?_⟩ <;>
    intro ht <;> simp [jsOr, ht]

/-- The current record of the claim's concrete example. -/
def exCur : EmbedData where
  service := .str "a"
  source := .str "u1"
  embed := .str "e1"
  width := .num 10
  height := .num 20

/-- The update `{source: "u2"}` of the claim's concrete example: all other
destructured fields read as `undefined`. -/
def exUpd : EmbedData where
  service := .undefv
  source := .str "u2"
  embed := .undefv
  width := .undefv
  height := .undefv

/-- An update supplying the non-empty (but falsy) value `0` for `width`. -/
def exUpdZero : EmbedData where
  service := .undefv
  source := .str "u2"
  embed := .undefv
  width := .num 0
  height := .undefv

/-- C4 counterexample: updating `{service:"a", source:"u1", embed:"e1",
width:10, height:20}` with `{source:"u2", width:0}` — `width` is supplied
with the non-empty value `0`, yet the stored width stays `10`: a field
supplied with a non-empty value does not necessarily take the new value. -/
theorem c4_counterexample :
    setData (DataArg.vobj exUpdZero) exCur =
      .ok { service := .str "a", source := .str "u2", embed := .str "e1",
            width := .num 10, height := .num 20 }
      ∧ FieldVal.num 10 ≠ FieldVal.num 0 := by
  refine ⟨rfl, ?_⟩
  intro h
  simp at h

/-- C4 (amended): in the `data` setter, a field whose incoming value is JS-
truthy takes the new value and a field whose incoming value is falsy —
omitted (`undefined`), the empty string, but also `0`, `false`, `null` —
retains its previous value; in particular updating the example record with
`{source:"u2"}` changes only `source`. -/
theorem c4_partial_update (cur d r : EmbedData)
    (h : setData (DataArg.vobj d) cur = .ok r) : mergeSpec cur d r :=
  setData_mergeSpec cur d r h

/-- Witness for C4 at the claim's own example. -/
theorem c4_partial_update_witness :
    setData (DataArg.vobj exUpd) exCur =
      .ok { service := .str "a", source := .str "u2", embed := .str "e1",
            width := .num 10, height := .num 20 }
      ∧ mergeSpec exCur exUpd
        { service := .str "a", source := .str "u2", embed := .str "e1",
          width := .num 10, height := .num 20 } :=
  ⟨rfl, c4_partial_update exCur exUpd _ rfl⟩

/-- A field value as it can occur in a record produced by `save`: either
`undefined` or truthy — the `new || old` merge never stores a falsy
non-`undefined` value starting from the empty record. -/
def savedField (v : FieldVal) : Prop := v = .undefv ∨ truthy v = true

/-- The shape of every record reachable through the `data` setter (and hence
of every previously saved record). -/
def savedShape (r : EmbedData) : Prop :=
  savedField r.service ∧ savedField r.source ∧ savedField r.embed
    ∧ savedField r.width ∧ savedField r.height

theorem jsOr_savedField (x y : FieldVal) (hy : savedField y) :
    savedField (jsOr x y) := by
  unfold jsOr
  split
  · next hx => exact Or.inr hx
  · exact hy

/-- Every record the `data` setter produces from a saved-shape record again
has saved shape: the invariant behind `savedShape`. -/
theorem setData_savedShape (cur d r : EmbedData) (hcur : savedShape cur)
    (h : setData (DataArg.vobj d) cur = .ok r) : savedShape r := by
  rw [setData_ok_iff] at h
  subst h
  obtain ⟨h1, h2, h3, h4, h5⟩ := hcur
  exact ⟨jsOr_savedField _ _ h1, jsOr_savedField _ _ h2, jsOr_savedField _ _ h3,
    jsOr_savedField _ _ h4, jsOr_savedField _ _ h5⟩

theorem emptyRecord_savedShape : savedShape emptyRecord := by
  refine ⟨?_, ?_, ?_, ?_, ?_⟩ <;> exact Or.inl rfl

theorem jsOr_undef (x : FieldVal) (h : savedField x) : jsOr x .undefv = x := by
  rcases h with h | h
  · subst h; rfl
  · exact jsOr_of_truthy _ _ h

/-- C5: constructing an `Embed` with a previously saved record (each field
`undefined` or truthy, which `savedShape` captures as the invariant of
every record the setter can ever store) and immediately calling `save`
with no intervening mutation reproduces the same `service`, `source`,
`embed`, `width` and `height` values. -/
theorem c5_roundtrip (r : EmbedData) (h : savedShape r) :
    (constructEmbed (DataArg.vobj r)).map saveData = .ok r := by
  obtain ⟨h1, h2, h3, h4, h5⟩ := h
  unfold constructEmbed setData emptyRecord saveData
  simp only [Except.map]
  congr 1
  cases r
  simp only [EmbedData.mk.injEq]
  exact ⟨jsOr_undef _ h1, jsOr_undef _ h2, jsOr_undef _ h3, jsOr_undef _ h4, jsOr_undef _ h5⟩

/-- Witness for C5 at a concrete saved record. -/
theorem c5_roundtrip_witness :
    savedShape exCur ∧ (constructEmbed (DataArg.vobj exCur)).map saveData = .ok exCur := by
  have hs : savedShape exCur :=
    ⟨Or.inr rfl, Or.inr rfl, Or.inr rfl, Or.inr rfl, Or.inr rfl⟩
  exact ⟨hs, c5_roundtrip exCur hs⟩

/-- C8: a non-object argument to the `data` setter throws immediately and
leaves the stored record untouched; any `instanceof Object` argument is
accepted without raising. -/
theorem c8_nonobject_throws (arg : DataArg) (cur : EmbedData) :
    (isObjArg arg = false → runSet arg cur = (cur, some errDataNotObject))
      ∧ (isObjArg arg = true →
          ∃ r, setData arg cur = .ok r ∧ runSet arg cur = (r, none)) := by
  cases arg <;>
    simp [isObjArg, runSet, setData]

/-- Witness for C8: the number `5` is rejected with the record unchanged; an
object argument is accepted. -/
theorem c8_nonobject_throws_witness :
    (isObjArg (DataArg.vnum 5) = false
      ∧ runSet (DataArg.vnum 5) exCur = (exCur, some errDataNotObject))
      ∧ (isObjArg (DataArg.vobj exUpd) = true
          ∧ ∃ r, setData (DataArg.vobj exUpd) exCur = .ok r
              ∧ runSet (DataArg.vobj exUpd) exCur = (r, none)) :=
  ⟨⟨rfl, (c8_nonobject_throws (DataArg.vnum 5) exCur).1 rfl⟩,
   ⟨rfl, (c8_nonobject_throws (DataArg.vobj exUpd) exCur).2 rfl⟩⟩

/-- C10: in the `data` setter every defined-but-falsy incoming field value
(`0`, `false`, `null`, the empty string) behaves exactly like an omitted
field — the previous value is retained — while `null` as the whole update
argument is rejected as a non-object. -/
theorem c10_falsy_preserves (cur d r : EmbedData)
    (h : setData (DataArg.vobj d) cur = .ok r) :
    (truthy d.service = false → r.service = cur.service)
      ∧ (truthy d.source = false → r.source = cur.source)
      ∧ (truthy d.embed = false → r.embed = cur.embed)
      ∧ (truthy d.width = false → r.width = cur.width)
      ∧ (truthy d.height = false → r.height = cur.height)
      ∧ setData DataArg.vnull cur = .error errDataNotObject := by
  rw [setData_ok_iff] at h
  subst h
  refine ⟨?_, ?_, ?_, ?_, ?_, rfl⟩ <;> intro ht <;> exact jsOr_of_falsy _ _ ht

/-- An update supplying `width = 0` and `service = null`: both are defined
but falsy. -/
def exUpdFalsy : EmbedData where
  service := .nullv
  source := .str ""
  embed := .undefv
  width := .num 0
  height := .boolv false

/-- Witness for C10: `width: 0` leaves the stored width `10` unchanged, a
`null` service does not clear the stored service, and a `null` update
argument throws. -/
theorem c10_falsy_preserves_witness :
    setData (DataArg.vobj exUpdFalsy) exCur =
      .ok { service := .str "a", source := .str "u1", embed := .str "e1",
            width := .num 10, height := .num 20 }
      ∧ ((truthy exUpdFalsy.service = false →
            FieldVal.str "a" = exCur.service)
          ∧ (truthy exUpdFalsy.source = false →
              FieldVal.str "u1" = exCur.source)
          ∧ (truthy exUpdFalsy.embed = false →
              FieldVal.str "e1" = exCur.embed)
          ∧ (truthy exUpdFalsy.width = false →
              FieldVal.num 10 = exCur.width)
          ∧ (truthy exUpdFalsy.height = false →
              FieldVal.num 20 = exCur.height)
          ∧ setData DataArg.vnull exCur = .error errDataNotObject) :=
  ⟨rfl, c10_falsy_preserves exCur exUpdFalsy _ rfl⟩

/- ### Registry-resolution theorems -/

theorem insertMerge_of_notMem (acc : List (String × JsObj)) (k : String) (v : JsObj)
    (h : ∀ p ∈ acc, p.1 ≠ k) : insertMerge acc k v = acc ++ [(k, v)] := by
  induction acc with
  | nil => rfl
  | cons p rest ih =>
    obtain ⟨k1, v1⟩ := p
    have hk : k1 ≠ k := h (k1, v1) (List.mem_cons_self _ _)
    simp only [insertMerge, if_neg hk, List.cons_append, List.cons.injEq, true_and]
    exact ih (fun q hq => h q (List.mem_cons_of_mem _ hq))

theorem foldl_insertMerge_of_nodup (l : List (String × JsObj)) :
    ∀ acc : List (String × JsObj), ((acc ++ l).map Prod.fst).Nodup →
      l.foldl (fun a kv => insertMerge a kv.1 kv.2) acc = acc ++ l := by
  induction l with
  | nil => intro acc _; simp
  | cons p rest ih =>
    intro acc hnd
    obtain ⟨k, v⟩ := p
    have hnotmem : ∀ q ∈ acc, q.1 ≠ k := by
      intro q hq hqk
      rw [List.map_append, List.nodup_append] at hnd
      have h1 : q.1 ∈ acc.map Prod.fst := List.mem_map.mpr ⟨q, hq, rfl⟩
      have h2 : q.1 ∈ ((k, v) :: rest).map Prod.fst := by rw [hqk]; simp
      exact hnd.2.2 h1 h2
    simp only [List.foldl_cons]
    rw [insertMerge_of_notMem acc k v hnotmem]
    have := ih (acc ++ [(k, v)]) (by simpa using hnd)
    simpa using this

theorem lookup_insertMerge (k : String) (v : JsObj) :
    ∀ acc : List (String × JsObj),
      (insertMerge acc k v).lookup k =
        some (match acc.lookup k with | some w => objAssign w v | none => v) := by
  intro acc
  induction acc with
  | nil => simp [insertMerge, List.lookup]
  | cons p rest ih =>
    obtain ⟨k1, v1⟩ := p
    by_cases hk : k1 = k
    · subst hk
      simp [insertMerge, List.lookup]
    · simp only [insertMerge, if_neg hk, List.lookup]
      have hbeq : (k == k1) = false := by
        simp [beq_iff_eq]
        exact fun h => hk h.symm
      simp [hbeq, ih]

theorem objAssign_pickService (a c : JsObj) :
    objAssign a (pickService c) = pickService c := rfl

theorem prepare_single_custom (builtins : List (String × JsObj)) (k : String)
    (c : JsObj) (cssOK : String → FieldVal → Bool)
    (hval : checkObj cssOK c = true) :
    prepare builtins [(k, ConfigVal.vobj c)] cssOK =
      .ok (insertMerge (builtins.foldl (fun a kv => insertMerge a kv.1 kv.2) [])
            k (pickService c)) := by
  unfold prepare validCustoms validCustoms
  simp [isObjType, checkServiceConfig, hval, boolTrue]

/-- A pattern object that matches every URL with the full match as its only
array entry (no capture groups). -/
def anyRe : JSRegex := fun s => some [some s]

/-- An abstract `CSS.supports` that accepts everything (the custom heights
below are ordinary CSS lengths, so this matches a real browser on the
concrete inputs used here). -/
def cssAll : String → FieldVal → Bool := fun _ _ => true

def frameHtml : String := "<iframe height=300></iframe>"

/-- A builtin definition for key `X` with `height = 200` and `width = 500`. -/
def builtinX : JsObj where
  regex := some (.re anyRe)
  embedUrl := some (.str ("https://builtin/<%= remote_id %>"))
  html := some (.str (frameHtml))
  height := some (.num 200)
  width := some (.num 500)
  id := none

/-- A valid custom definition for the same key supplying `height` but not
`width` and not `id`. -/
def customX : JsObj where
  regex := some (.re anyRe)
  embedUrl := some (.str ("https://custom/<%= remote_id %>"))
  html := some (.str (frameHtml))
  height := some (.str ("300px"))
  width := none
  id := none

/-- C1 counterexample: builtin `X` has `width = 500`; the validated custom
`X` supplies `height` but omits `width`; the resolved definition's `width`
is a present property holding `undefined` — the builtin `width` is *not*
preserved, because the `.map` step of `prepare` materialises every field
of the custom definition (absent ones as `undefined`) before
`Object.assign`. -/
theorem c1_counterexample :
    checkObj cssAll customX = true
      ∧ customX.width = none
      ∧ builtinX.width = some (FieldVal.num 500)
      ∧ prepare [("X", builtinX)] [("X", ConfigVal.vobj customX)] cssAll =
          .ok [("X", pickService customX)]
      ∧ (pickService customX).width = some FieldVal.undefv
      ∧ (some FieldVal.undefv : Option FieldVal) ≠ some (FieldVal.num 500) := by
  refine ⟨rfl, rfl, rfl, rfl, rfl, ?_⟩
  simp

/-- C1 (amended): when a validated custom definition's key coincides with a
surviving builtin key, the resolved definition for that key is exactly the
custom definition's six materialised fields: every field the custom
supplies has the custom value, and every field the custom does not supply
is `undefined` — the builtin values of unsupplied fields (e.g. `width` or
the id extractor) are overwritten, not preserved. -/
theorem c1_custom_over_builtin (builtins : List (String × JsObj)) (k : String)
    (b c : JsObj) (cssOK : String → FieldVal → Bool)
    (hnd : (builtins.map Prod.fst).Nodup)
    (hb : builtins.lookup k = some b)
    (hval : checkObj cssOK c = true) :
    ∃ reg, prepare builtins [(k, ConfigVal.vobj c)] cssOK = .ok reg
      ∧ reg.lookup k = some (pickService c)
      ∧ (∀ v, c.height = some v → (pickService c).height = some v)
      ∧ (c.width = none → (pickService c).width = some FieldVal.undefv)
      ∧ (c.id = none → (pickService c).id = some FieldVal.undefv) := by
  refine ⟨_, prepare_single_custom builtins k c cssOK hval, ?_, ?_, ?_, ?_⟩
  · rw [foldl_insertMerge_of_nodup builtins [] (by simpa using hnd)]
    rw [List.nil_append, lookup_insertMerge, hb]
    show some (objAssign b (pickService c)) = some (pickService c)
    rw [objAssign_pickService]
  · intro v hv
    simp [pickService, fieldOf, hv]
  · intro hw
    simp [pickService, fieldOf, hw]
  · intro hi
    simp [pickService, fieldOf, hi]

/-- Witness for C1 at the concrete builtin/custom pair. -/
theorem c1_custom_over_builtin_witness :
    (List.map Prod.fst [("X", builtinX)]).Nodup
      ∧ List.lookup ("X") [("X", builtinX)] = some builtinX
      ∧ checkObj cssAll customX = true
      ∧ ∃ reg, prepare [("X", builtinX)] [("X", ConfigVal.vobj customX)] cssAll = .ok reg
          ∧ reg.lookup ("X") = some (pickService customX)
          ∧ (∀ v, customX.height = some v → (pickService customX).height = some v)
          ∧ (customX.width = none → (pickService customX).width = some FieldVal.undefv)
          ∧ (customX.id = none → (pickService customX).id = some FieldVal.undefv) :=
  ⟨by simp, rfl, rfl,
    c1_custom_over_builtin [("X", builtinX)] ("X") builtinX customX cssAll
      (by simp) rfl rfl⟩

/-- An entry of the user `services` mapping that C7's amended statement keeps:
everything except an object-typed custom definition that fails
validation. -/
def validEntry (cssOK : String → FieldVal → Bool) (kv : String × ConfigVal) : Bool :=
  match kv.2 with
  | .vobj o => checkObj cssOK o
  | _ => true

theorem validCustoms_ok_of_no_null (cssOK : String → FieldVal → Bool)
    (cfg : List (String × ConfigVal))
    (hnn : ∀ p ∈ cfg, p.2 ≠ ConfigVal.vnull) :
    ∃ user, validCustoms cssOK cfg = .ok user := by
  induction cfg with
  | nil => exact ⟨[], rfl⟩
  | cons p rest ih =>
    obtain ⟨k, v⟩ := p
    obtain ⟨user, hu⟩ := ih (fun q hq => hnn q (List.mem_cons_of_mem _ hq))
    cases v with
    | vnull => exact absurd rfl (hnn (k, .vnull) (List.mem_cons_self _ _))
    | vobj o =>
      by_cases hc : checkObj cssOK o = true
      · exact ⟨(k, pickService o) :: user, by
          simp [validCustoms, isObjType, checkServiceConfig, hu, hc]⟩
      · have hc2 : checkObj cssOK o = false := by
          cases h : checkObj cssOK o
          · rfl
          · exact absurd h hc
        exact ⟨user, by
          simp [validCustoms, isObjType, checkServiceConfig, hu, hc2]⟩
    | vbool b => exact ⟨user, by simp [validCustoms, isObjType, hu]⟩
    | vother => exact ⟨user, by simp [validCustoms, isObjType, hu]⟩

theorem validCustoms_filter (cssOK : String → FieldVal → Bool)
    (cfg : List (String × ConfigVal))
    (hnn : ∀ p ∈ cfg, p.2 ≠ ConfigVal.vnull) :
    validCustoms cssOK (cfg.filter (validEntry cssOK)) = validCustoms cssOK cfg := by
  induction cfg with
  | nil => rfl
  | cons p rest ih =>
    obtain ⟨k, v⟩ := p
    have ihr := ih (fun q hq => hnn q (List.mem_cons_of_mem _ hq))
    cases v with
    | vnull => exact absurd rfl (hnn (k, .vnull) (List.mem_cons_self _ _))
    | vobj o =>
      by_cases hc : checkObj cssOK o = true
      · simp only [List.filter_cons, validEntry, hc, if_true]
        simp [validCustoms, isObjType, checkServiceConfig, ihr]
      · have hc2 : checkObj cssOK o = false := by
          cases h : checkObj cssOK o
          · rfl
          · exact absurd h hc
        simp only [List.filter_cons, validEntry, hc2, Bool.false_eq_true, if_false]
        rw [ihr]
        obtain ⟨user, hu⟩ := validCustoms_ok_of_no_null cssOK rest
          (fun q hq => hnn q (List.mem_cons_of_mem _ hq))
        simp [validCustoms, isObjType, checkServiceConfig, hc2, hu]
    | vbool b =>
      simp only [List.filter_cons, validEntry, if_true]
      simp [validCustoms, isObjType, ihr]
    | vother =>
      simp only [List.filter_cons, validEntry, if_true]
      simp [validCustoms, isObjType, ihr]

theorem filter_boolTrue_validEntry (cssOK : String → FieldVal → Bool)
    (cfg : List (String × ConfigVal)) :
    (cfg.filter (validEntry cssOK)).filter (fun kv => boolTrue kv.2) =
      cfg.filter (fun kv => boolTrue kv.2) := by
  rw [List.filter_filter]
  apply List.filter_congr
  intro kv _
  cases hv : kv.2 <;> simp [boolTrue, validEntry, hv]

def invalidCustom : JsObj where
  regex := none
  embedUrl := none
  html := some (.str (frameHtml))
  height := none
  width := none
  id := none

/-- C7 counterexample: a `services` entry whose value is `null` has
`typeof === 'object'`, so it reaches `checkServiceConfig`, whose
destructuring of `null` throws — registry resolution does not complete
without raising for every user configuration. -/
theorem c7_counterexample :
    prepare [("X", builtinX)] [("bad", ConfigVal.vnull)] cssAll =
      .error errDestructureNull := rfl

/-- C7 (amended): for every user configuration whose `services` values are
never `null`, every object-typed custom definition that fails validation
is silently excluded — resolution completes without raising and yields
exactly the registry obtained after deleting the invalid entries — while a
`null` value (which JS types as an object) makes resolution throw. -/
theorem c7_invalid_dropped (builtins : List (String × JsObj))
    (cfg : List (String × ConfigVal)) (cssOK : String → FieldVal → Bool)
    (hnn : ∀ p ∈ cfg, p.2 ≠ ConfigVal.vnull) :
    (∃ reg, prepare builtins cfg cssOK = .ok reg)
      ∧ prepare builtins cfg cssOK =
          prepare builtins (cfg.filter (validEntry cssOK)) cssOK := by
  obtain ⟨user, hu⟩ := validCustoms_ok_of_no_null cssOK cfg hnn
  constructor
  · exact ⟨_, by unfold prepare; rw [hu]⟩
  · unfold prepare
    rw [validCustoms_filter cssOK cfg hnn, filter_boolTrue_validEntry]

def cfgInvalid : List (String × ConfigVal) := [("bad2", ConfigVal.vobj invalidCustom)]

/-- Witness for C7: a custom definition missing `regex` and `embedUrl` is
dropped and resolution succeeds with the builtin registry unchanged. -/
theorem c7_invalid_dropped_witness :
    (∀ p ∈ cfgInvalid, p.2 ≠ ConfigVal.vnull)
      ∧ (∃ reg, prepare [("X", builtinX)] cfgInvalid cssAll = .ok reg)
      ∧ prepare [("X", builtinX)] cfgInvalid cssAll =
          prepare [("X", builtinX)] (cfgInvalid.filter (validEntry cssAll)) cssAll := by
  have hnn : ∀ p ∈ cfgInvalid, p.2 ≠ ConfigVal.vnull := by
    intro p hp
    rw [cfgInvalid, List.mem_singleton] at hp
    subst hp
    intro h
    exact ConfigVal.noConfusion h
  exact ⟨hnn, c7_invalid_dropped [("X", builtinX)] cfgInvalid cssAll hnn⟩

/- ### Matcher-order theorems -/

/-- `regex.test(url)` as a pure projection, defined on entries whose `regex`
field is an actual RegExp. -/
def reTest (svc : JsObj) (url : String) : Bool :=
  match fieldOf svc.regex with
  | .re r => (r url).isSome
  | _ => false

theorem forInOrder_of_no_index (l : List (String × JsObj))
    (h : ∀ p ∈ l, isIndexKey p.1 = false) : forInOrder l = l := by
  unfold forInOrder
  have h1 : l.filter (fun kv => isIndexKey kv.1) = [] := by
    rw [List.filter_eq_nil_iff]
    intro a ha
    simp [h a ha]
  have h2 : l.filter (fun kv => !(isIndexKey kv.1)) = l := by
    rw [List.filter_eq_self]
    intro a ha
    simp [h a ha]
  rw [h1, h2]
  rfl

theorem matchLoop_eq_find (url : String) (l : List (String × JsObj))
    (hre : ∀ p ∈ l, isReV (fieldOf p.2.regex) = true) :
    matchLoop url l =
      .ok ((l.find? (fun kv => reTest kv.2 url)).map (fun kv => (kv.1, url))) := by
  induction l with
  | nil => rfl
  | cons p rest ih =>
    obtain ⟨k, svc⟩ := p
    have hp := hre (k, svc) (List.mem_cons_self _ _)
    have ihr := ih (fun q hq => hre q (List.mem_cons_of_mem _ hq))
    cases hfv : fieldOf svc.regex with
    | re r =>
      by_cases hm : (r url).isSome = true
      · simp [matchLoop, testField, hfv, List.find?_cons, reTest, hm]
      · have hm2 : (r url).isSome = false := by
          cases h2 : (r url).isSome
          · rfl
          · exact absurd h2 hm
        simp [matchLoop, testField, hfv, List.find?_cons, reTest, hm2, ihr]
    | undefv => rw [hfv] at hp; exact absurd hp (by simp [isReV])
    | nullv => rw [hfv] at hp; exact absurd hp (by simp [isReV])
    | str s => rw [hfv] at hp; exact absurd hp (by simp [isReV])
    | num n => rw [hfv] at hp; exact absurd hp (by simp [isReV])
    | boolv b => rw [hfv] at hp; exact absurd hp (by simp [isReV])
    | fn f => rw [hfv] at hp; exact absurd hp (by simp [isReV])

/-- The key "0" is an array index, so `for..in` enumerates it before the
builtin key "a" even though it was inserted after it. -/
theorem c3_counterexample :
    (prepare [("a", builtinX)] [("0", ConfigVal.vobj customX)] cssAll).map
        (List.map Prod.fst) = .ok (["a", "0"])
      ∧ (match prepare [("a", builtinX)] [("0", ConfigVal.vobj customX)] cssAll with
         | .ok reg => matchService reg ("x")
         | .error e => .error e) = .ok (some ("0", "x"))
      ∧ reTest builtinX ("x") = true
      ∧ ("0" : String) ≠ ("a" : String) := by
  refine ⟨rfl, ?_, rfl, by decide⟩
  rfl

/-- C3 (amended): the matcher scans the registry in JS `for..in` enumeration
order — array-index-like keys first in ascending numeric order, then the
remaining keys in insertion order (builtins in catalog order, then custom
keys) — and stops at the first positive pattern test.  When no registry
key is array-index-like, this coincides with plain insertion order, and
the returned service is the first key in registry order whose pattern
tests positive against the candidate URL. -/
theorem c3_first_match (services : List (String × JsObj)) (str : String)
    (hidx : ∀ p ∈ services, isIndexKey p.1 = false)
    (hre : ∀ p ∈ services, isReV (fieldOf p.2.regex) = true) :
    matchService services str =
      .ok (if candidateOf str = "" then none
           else ((services.find? (fun kv => reTest kv.2 (candidateOf str))).map
                  (fun kv => (kv.1, candidateOf str)))) := by
  unfold matchService
  rw [forInOrder_of_no_index services hidx]
  by_cases hu : candidateOf str = ""
  · simp [hu]
  · simp only [hu, if_neg, if_false]
    rw [matchLoop_eq_find (candidateOf str) services hre]

def c3svcs : List (String × JsObj) := [("a", builtinX), ("b", customX)]

/-- Witness for C3 on a two-entry registry with non-index keys whose
patterns both match. -/
theorem c3_first_match_witness :
    (∀ p ∈ c3svcs, isIndexKey p.1 = false)
      ∧ (∀ p ∈ c3svcs, isReV (fieldOf p.2.regex) = true)
      ∧ matchService c3svcs ("u") =
          .ok (if candidateOf ("u") = "" then none
               else ((c3svcs.find? (fun kv => reTest kv.2 (candidateOf ("u")))).map
                      (fun kv => (kv.1, candidateOf ("u"))))) := by
  have hidx : ∀ p ∈ c3svcs, isIndexKey p.1 = false := by
    intro p hp
    rw [c3svcs, List.mem_cons, List.mem_singleton] at hp
    rcases hp with h | h <;> (subst h; decide)
  have hre : ∀ p ∈ c3svcs, isReV (fieldOf p.2.regex) = true := by
    intro p hp
    rw [c3svcs, List.mem_cons, List.mem_singleton] at hp
    rcases hp with h | h <;> (subst h; rfl)
  exact ⟨hidx, hre, c3_first_match c3svcs ("u") hidx hre⟩

/- ### performServices substitution theorems -/

/-- A pattern that matches exactly the URL `u` with no capture groups: its
match array is just the full match, so `slice(1)` is empty and the default
id extractor returns `undefined`. -/
def noGroupRe : JSRegex := fun s => if s = "u" then some [some s] else none

def tmplNG : String := "https://e/<%= remote_id %>x"

/-- A service whose pattern matches but whose capture-group extraction yields
`undefined`. -/
def svcNG : JsObj where
  regex := some (.re noGroupRe)
  embedUrl := some (.str tmplNG)
  html := some (.str frameHtml)
  height := none
  width := none
  id := none

/-- C2 counterexample: the pattern matches `u` but extraction yields
`undefined`; matching proceeds without raising, yet the placeholder is
substituted with the string `"undefined"` — not with an empty string as
the claim states. -/
theorem c2_counterexample :
    startChecking [("s", svcNG)] emptyRecord ("u") =
      .ok (some { service := .str ("s"), source := .str ("u"),
                  embed := .str ("https://e/undefinedx"),
                  width := .undefv, height := .undefv })
      ∧ ("https://e/undefinedx" : String) ≠ ("https://e/x" : String) := by
  exact ⟨rfl, by decide⟩

/-- C2 (amended): when a service pattern matches the candidate URL, matching
proceeds without raising even when the extracted resource id is empty or
undefined; the placeholder is substituted with the extracted id coerced to
a string — the empty string when the id is the empty string, but the
literal string `"undefined"` when the id is undefined (JS
`String.prototype.replace` stringifies an `undefined` replacement). -/
theorem c2_id_substitution (services : List (String × JsObj)) (key url tmpl : String)
    (svc : JsObj) (r : JSRegex) (arr : List (Option String)) (cur : EmbedData)
    (hl : services.lookup key = some svc)
    (hre : fieldOf svc.regex = .re r)
    (hex : r url = some arr)
    (htm : fieldOf svc.embedUrl = .str tmpl)
    (hid : fieldOf svc.id = .undefv) :
    performServices services key url cur =
        setData (DataArg.vobj
          { service := .str key, source := .str url,
            embed := .str (replaceAllS tmpl placeholder (jsStr (defaultId (arr.drop 1)))),
            width := fieldOf svc.width, height := fieldOf svc.height }) cur
      ∧ (∃ rec, performServices services key url cur = .ok rec)
      ∧ jsStr (some "") = ""
      ∧ jsStr none = ("undefined" : String) := by
  have hmain : performServices services key url cur =
      setData (DataArg.vobj
        { service := .str key, source := .str url,
          embed := .str (replaceAllS tmpl placeholder (jsStr (defaultId (arr.drop 1)))),
          width := fieldOf svc.width, height := fieldOf svc.height }) cur := by
    unfold performServices
    rw [hl]
    simp only [hre, hex, htm, hid]
  refine ⟨hmain, ?_, rfl, rfl⟩
  rw [hmain]
  exact ⟨_, rfl⟩

/-- Witness for C2 at the concrete no-capture-group service. -/
theorem c2_id_substitution_witness :
    List.lookup ("s") [("s", svcNG)] = some svcNG
      ∧ fieldOf svcNG.regex = .re noGroupRe
      ∧ noGroupRe ("u") = some [some ("u")]
      ∧ fieldOf svcNG.embedUrl = .str tmplNG
      ∧ fieldOf svcNG.id = .undefv
      ∧ (performServices [("s", svcNG)] ("s") ("u") emptyRecord =
            setData (DataArg.vobj
              { service := .str ("s"), source := .str ("u"),
                embed := .str (replaceAllS tmplNG placeholder
                  (jsStr (defaultId (([some ("u")] : List (Option String)).drop 1)))),
                width := fieldOf svcNG.width, height := fieldOf svcNG.height }) emptyRecord
          ∧ (∃ rec, performServices [("s", svcNG)] ("s") ("u") emptyRecord = .ok rec)
          ∧ jsStr (some "") = ""
          ∧ jsStr none = ("undefined" : String)) :=
  ⟨rfl, rfl, rfl, rfl, rfl,
    c2_id_substitution [("s", svcNG)] ("s") ("u") tmplNG svcNG noGroupRe
      [some ("u")] emptyRecord rfl rfl rfl rfl rfl⟩

/- ### Quiescence theorems -/

theorem debounceResolve_spec (delay : Nat) (ts : List Nat) :
    (debounceResolve delay ts = none ↔ ts = [])
      ∧ (∀ r, debounceResolve delay ts = some r →
          ∃ i, i < ts.length ∧ r = ts.getD i 0 + delay
            ∧ (∀ j, j < i → ts.getD (j + 1) 0 < ts.getD j 0 + delay)
            ∧ (i + 1 < ts.length → ts.getD i 0 + delay ≤ ts.getD (i + 1) 0)) := by
  induction ts with
  | nil =>
    refine ⟨by simp [debounceResolve], ?_⟩
    intro r h
    simp [debounceResolve] at h
  | cons t rest ih =>
    cases rest with
    | nil =>
      refine ⟨by simp [debounceResolve], ?_⟩
      intro r h
      simp only [debounceResolve, Option.some.injEq] at h
      refine ⟨0, by simp, by simp [h.symm], ?_, ?_⟩
      · intro j hj
        omega
      · intro hlen
        simp at hlen
    | cons t2 rest2 =>
      by_cases hlt : t2 < t + delay
      · have heq : debounceResolve delay (t :: t2 :: rest2) =
            debounceResolve delay (t2 :: rest2) := by
          simp [debounceResolve, hlt]
        constructor
        · rw [heq]
          constructor
          · intro h
            exact absurd (ih.1.mp h) (by simp)
          · intro h
            exact absurd h (by simp)
        · intro r h
          rw [heq] at h
          obtain ⟨i, hi, hr, hgaps, hlast⟩ := ih.2 r h
          refine ⟨i + 1, by simpa using Nat.succ_lt_succ hi, ?_, ?_, ?_⟩
          · simpa [List.getD_cons_succ] using hr
          · intro j hj
            cases j with
            | zero => simpa [List.getD_cons_succ, List.getD_cons_zero] using hlt
            | succ j2 =>
              have := hgaps j2 (by omega)
              simpa [List.getD_cons_succ] using this
          · intro hlen
            have := hlast (by simpa using Nat.lt_of_succ_lt_succ hlen)
            simpa [List.getD_cons_succ] using this
      · have heq : debounceResolve delay (t :: t2 :: rest2) = some (t + delay) := by
          simp [debounceResolve, hlt]
        constructor
        · rw [heq]
          simp
        · intro r h
          rw [heq] at h
          injection h with h
          refine ⟨0, by simp, by simp [h.symm], ?_, ?_⟩
          · intro j hj
            omega
          · intro _
            simpa [List.getD_cons_succ, List.getD_cons_zero] using Nat.le_of_not_lt hlt

/-- C9: over any time-ordered sequence of mutation batches, the quiescence
future of `embedIsReady` resolves (exactly once, as its `Option` result)
only at `tᵢ + 450` for the first batch `i` whose following gap is at least
the quiet period `PRELOADER_DELAY = 450` (or which is the last batch):
every earlier batch is followed within the quiet period by another one,
so the future never resolves after an intermediate short-gap batch, and
with no mutation at all it never resolves. -/
theorem c9_quiescence (ts : List Nat) :
    (embedIsReadyAt ts = none ↔ ts = [])
      ∧ (∀ r, embedIsReadyAt ts = some r →
          ∃ i, i < ts.length ∧ r = ts.getD i 0 + PRELOADER_DELAY
            ∧ (∀ j, j < i → ts.getD (j + 1) 0 < ts.getD j 0 + PRELOADER_DELAY)
            ∧ (i + 1 < ts.length →
                ts.getD i 0 + PRELOADER_DELAY ≤ ts.getD (i + 1) 0)) :=
  debounceResolve_spec PRELOADER_DELAY ts

/-- Witness for C9: bursts at 0 and 100 (gap 100 < 450), final batch at 600
(gap 500 ≥ 450): the future resolves at 550 = 100 + 450, after the second
batch, not after the first. -/
theorem c9_quiescence_witness :
    embedIsReadyAt [0, 100, 600] = some 550
      ∧ (∃ i, i < ([0, 100, 600] : List Nat).length
          ∧ 550 = ([0, 100, 600] : List Nat).getD i 0 + PRELOADER_DELAY
          ∧ (∀ j, j < i → ([0, 100, 600] : List Nat).getD (j + 1) 0 <
              ([0, 100, 600] : List Nat).getD j 0 + PRELOADER_DELAY)
          ∧ (i + 1 < ([0, 100, 600] : List Nat).length →
              ([0, 100, 600] : List Nat).getD i 0 + PRELOADER_DELAY ≤
                ([0, 100, 600] : List Nat).getD (i + 1) 0)) :=
  ⟨by decide, (c9_quiescence [0, 100, 600]).2 550 (by decide)⟩

/- ### Iframe-unwrapping theorems -/

/-- The characters of `<iframe src="` followed by `u` followed by
`"></iframe>`: the markup input of the claim. -/
def wrapList (u : List Char) : List Char :=
  openLit ++ (' ' :: srcLit) ++ (dqChar :: u) ++ (dqChar :: '>' :: '<' :: '/' :: closeLit)

/-- The input string `<iframe src="U"></iframe>`. -/
def wrapIframe (U : String) : String := String.mk (wrapList U.toList)

theorem matchG2_append (q : Char) (tail : List Char)
    (htail : dotPlusIframe tail = true) :
    ∀ (u acc : List Char), u ≠ [] → (∀ c ∈ u, isDotC c = true ∧ ¬(c = q)) →
      matchG2 q acc (u ++ q :: tail) = some (acc ++ u) := by
  intro u
  induction u with
  | nil => intro acc hne _; exact absurd rfl hne
  | cons c u2 ih =>
    intro acc _ hu
    have hc := hu c (List.mem_cons_self _ _)
    cases u2 with
    | nil =>
      simp only [List.nil_append, List.singleton_append, matchG2, hc.1, if_true]
      simp [htail]
    | cons c2 u3 =>
      have hc2 := hu c2 (List.mem_cons_of_mem _ (List.mem_cons_self _ _))
      have hrec := ih (acc ++ [c]) (by simp)
        (fun d hd => hu d (List.mem_cons_of_mem _ hd))
      rw [List.cons_append] at hrec
      simp only [List.cons_append, List.append_eq, matchG2, hc.1, if_true]
      rw [if_neg (by simp [hc2.2])]
      rw [hrec]
      simp

theorem mk_toList (s : String) : String.mk s.toList = s := rfl

theorem toList_eq_nil (s : String) (h : s.toList = []) : s = "" := by
  cases s with
  | mk data =>
    have h2 : data = [] := h
    subst h2
    rfl

/-- On well-formed markup `<iframe src="u"></iframe>` whose `src` value is
nonempty and contains no double quote and no LineTerminator, the wrapping
regex matches at position 0 and capture group 2 is exactly `u`. -/
theorem iframeMatch_wrapList (u : List Char) (hne : u ≠ [])
    (hu : ∀ c ∈ u, isDotC c = true ∧ ¬(c = dqChar)) :
    iframeMatch (wrapList u) = some u := by
  have hg2 : matchG2 dqChar [] (u ++ dqChar :: '>' :: '<' :: '/' :: closeLit) = some u := by
    have h := matchG2_append dqChar ('>' :: '<' :: '/' :: closeLit) (by decide) u [] hne hu
    simpa using h
  change ((matchG2 dqChar []
      (u ++ dqChar :: '>' :: '<' :: '/' :: closeLit)).orElse _).orElse _ = some u
  rw [hg2]
  rfl

theorem candidateOf_wrap (U : String) (hne : U ≠ "")
    (hu : ∀ c ∈ U.toList, isDotC c = true ∧ ¬(c = dqChar)) :
    candidateOf (wrapIframe U) = U := by
  have hne2 : U.toList ≠ [] := fun h => hne (toList_eq_nil U h)
  have hlist : (wrapIframe U).toList = wrapList U.toList := rfl
  unfold candidateOf
  rw [hlist, iframeMatch_wrapList U.toList hne2 hu]
  simp only [mk_toList]
  rw [if_neg hne]

theorem candidateOf_self (U : String) (hself : iframeMatch U.toList = none) :
    candidateOf U = U := by
  unfold candidateOf
  rw [hself]

/-- C6 counterexample at the quoted src value `""` (an empty but valid quoted
attribute value): the wrapping regex cannot match `<iframe src=""></iframe>`
(group 2 needs at least one character), so the whole markup string is used
as the candidate URL and matches a catch-all pattern, while the bare input
`""` is rejected before the registry scan — the two results differ. -/
theorem c6_counterexample :
    matchService [("s", builtinX)] (wrapIframe ("")) =
        .ok (some (("s"), wrapIframe ("")))
      ∧ matchService [("s", builtinX)] ("") = .ok none
      ∧ (some (("s"), wrapIframe ("")) : Option (String × String)) ≠ none := by
  refine ⟨rfl, rfl, ?_⟩
  simp

/-- C6 (amended): for every registry, matching `<iframe src="U"></iframe>`
yields exactly the same result as matching the bare input `U`, provided
`U` is nonempty, contains no double quote and no LineTerminator character,
and does not itself match the iframe-unwrapping pattern; without those
provisos the two can differ (see the counterexample). -/
theorem c6_iframe_unwrap (services : List (String × JsObj)) (U : String)
    (hne : U ≠ "")
    (hu : ∀ c ∈ U.toList, isDotC c = true ∧ ¬(c = dqChar))
    (hself : iframeMatch U.toList = none) :
    matchService services (wrapIframe U) = matchService services U := by
  unfold matchService
  rw [candidateOf_wrap U hne hu, candidateOf_self U hself]

def exUrl : String := "https://example.com/embed/42"

/-- Witness for C6 at the claim's own example URL. -/
theorem c6_iframe_unwrap_witness :
    (exUrl ≠ "")
      ∧ (∀ c ∈ exUrl.toList, isDotC c = true ∧ ¬(c = dqChar))
      ∧ iframeMatch exUrl.toList = none
      ∧ matchService [("s", builtinX)] (wrapIframe exUrl) =
          matchService [("s", builtinX)] exUrl :=
  ⟨by decide, by decide, by decide,
    c6_iframe_unwrap [("s", builtinX)] exUrl (by decide) (by decide) (by decide)⟩
